import Mathlib

/-!
Verification of the keystroke-normalization and keymap-matching subsystem:
a shallow embedding of `crates/gpui/src/platform/keycodes.rs`,
`crates/gpui/src/platform/keystroke.rs`, `crates/gpui/src/keymap/binding.rs`
and `crates/terminal/src/mappings/keys.rs`, followed by theorems about the
embedded operations.

The key-code enumeration is named `KeyCode` in `keycodes.rs`; `keystroke.rs`
refers to the same enumeration under the alias `KeyCodes` (with
`KeyCodes::from_str` playing the role of `KeyCode::parse`).  We use the
`keycodes.rs` name throughout.
-/

/-- Position of a physical modifier key: `Any`, `Left` or `Right`
(from `keycodes.rs`). -/
inductive KeyPosition
  | Any
  | Left
  | Right
deriving DecidableEq, Fintype

/-- The custom `PartialEq` of `KeyPosition` in `keycodes.rs`:
`Left` and `Right` are unequal, every other pair (in particular any pair
involving `Any`) compares equal. -/
def KeyPosition.eq : KeyPosition → KeyPosition → Bool
  | KeyPosition.Right, KeyPosition.Left => false
  | KeyPosition.Left, KeyPosition.Right => false
  | _, _ => true

/-- The closed key enumeration of `keycodes.rs` (Windows virtual-key codes /
macOS-Linux scan codes), one variant per physical key. -/
inductive KeyCode
  | Unknown
  | Function
  | Cancel
  | Backspace
  | Tab
  | Clear
  | Enter
  | Shift (pos : KeyPosition)
  | Control (pos : KeyPosition)
  | Alt (pos : KeyPosition)
  | Pause
  | Capital
  | Escape
  | Space
  | PageUp
  | PageDown
  | End
  | Home
  | Left
  | Up
  | Right
  | Down
  | Select
  | Print
  | PrintScreen
  | Insert
  | Delete
  | Digital0
  | Digital1
  | Digital2
  | Digital3
  | Digital4
  | Digital5
  | Digital6
  | Digital7
  | Digital8
  | Digital9
  | A
  | B
  | C
  | D
  | E
  | F
  | G
  | H
  | I
  | J
  | K
  | L
  | M
  | N
  | O
  | P
  | Q
  | R
  | S
  | T
  | U
  | V
  | W
  | X
  | Y
  | Z
  | Platform (pos : KeyPosition)
  | App
  | F1
  | F2
  | F3
  | F4
  | F5
  | F6
  | F7
  | F8
  | F9
  | F10
  | F11
  | F12
  | F13
  | F14
  | F15
  | F16
  | F17
  | F18
  | F19
  | F20
  | F21
  | F22
  | F23
  | F24
  | BrowserBack
  | BrowserForward
  | Semicolon
  | Plus
  | Comma
  | Minus
  | Period
  | Slash
  | Tilde
  | LeftBracket
  | Backslash
  | RightBracket
  | Quote
  | OEM8
  | OEM102

/-- Numeric tag of a `KeyPosition`, used to decide structural equality. -/
def KeyPosition.toNat : KeyPosition → Nat
  | KeyPosition.Any => 0
  | KeyPosition.Left => 1
  | KeyPosition.Right => 2

/-- Numeric tag of a `KeyCode`, used to decide structural equality.
Position-carrying variants occupy three consecutive codes each. -/
def KeyCode.toNat : KeyCode → Nat
  | KeyCode.Unknown => 0
  | KeyCode.Function => 1
  | KeyCode.Cancel => 2
  | KeyCode.Backspace => 3
  | KeyCode.Tab => 4
  | KeyCode.Clear => 5
  | KeyCode.Enter => 6
  | KeyCode.Pause => 7
  | KeyCode.Capital => 8
  | KeyCode.Escape => 9
  | KeyCode.Space => 10
  | KeyCode.PageUp => 11
  | KeyCode.PageDown => 12
  | KeyCode.End => 13
  | KeyCode.Home => 14
  | KeyCode.Left => 15
  | KeyCode.Up => 16
  | KeyCode.Right => 17
  | KeyCode.Down => 18
  | KeyCode.Select => 19
  | KeyCode.Print => 20
  | KeyCode.PrintScreen => 21
  | KeyCode.Insert => 22
  | KeyCode.Delete => 23
  | KeyCode.Digital0 => 24
  | KeyCode.Digital1 => 25
  | KeyCode.Digital2 => 26
  | KeyCode.Digital3 => 27
  | KeyCode.Digital4 => 28
  | KeyCode.Digital5 => 29
  | KeyCode.Digital6 => 30
  | KeyCode.Digital7 => 31
  | KeyCode.Digital8 => 32
  | KeyCode.Digital9 => 33
  | KeyCode.A => 34
  | KeyCode.B => 35
  | KeyCode.C => 36
  | KeyCode.D => 37
  | KeyCode.E => 38
  | KeyCode.F => 39
  | KeyCode.G => 40
  | KeyCode.H => 41
  | KeyCode.I => 42
  | KeyCode.J => 43
  | KeyCode.K => 44
  | KeyCode.L => 45
  | KeyCode.M => 46
  | KeyCode.N => 47
  | KeyCode.O => 48
  | KeyCode.P => 49
  | KeyCode.Q => 50
  | KeyCode.R => 51
  | KeyCode.S => 52
  | KeyCode.T => 53
  | KeyCode.U => 54
  | KeyCode.V => 55
  | KeyCode.W => 56
  | KeyCode.X => 57
  | KeyCode.Y => 58
  | KeyCode.Z => 59
  | KeyCode.App => 60
  | KeyCode.F1 => 61
  | KeyCode.F2 => 62
  | KeyCode.F3 => 63
  | KeyCode.F4 => 64
  | KeyCode.F5 => 65
  | KeyCode.F6 => 66
  | KeyCode.F7 => 67
  | KeyCode.F8 => 68
  | KeyCode.F9 => 69
  | KeyCode.F10 => 70
  | KeyCode.F11 => 71
  | KeyCode.F12 => 72
  | KeyCode.F13 => 73
  | KeyCode.F14 => 74
  | KeyCode.F15 => 75
  | KeyCode.F16 => 76
  | KeyCode.F17 => 77
  | KeyCode.F18 => 78
  | KeyCode.F19 => 79
  | KeyCode.F20 => 80
  | KeyCode.F21 => 81
  | KeyCode.F22 => 82
  | KeyCode.F23 => 83
  | KeyCode.F24 => 84
  | KeyCode.BrowserBack => 85
  | KeyCode.BrowserForward => 86
  | KeyCode.Semicolon => 87
  | KeyCode.Plus => 88
  | KeyCode.Comma => 89
  | KeyCode.Minus => 90
  | KeyCode.Period => 91
  | KeyCode.Slash => 92
  | KeyCode.Tilde => 93
  | KeyCode.LeftBracket => 94
  | KeyCode.Backslash => 95
  | KeyCode.RightBracket => 96
  | KeyCode.Quote => 97
  | KeyCode.OEM8 => 98
  | KeyCode.OEM102 => 99
  | KeyCode.Shift p => 100 + p.toNat
  | KeyCode.Control p => 104 + p.toNat
  | KeyCode.Alt p => 108 + p.toNat
  | KeyCode.Platform p => 112 + p.toNat

/-- Partial inverse of `KeyCode.toNat`, used to prove the tag injective. -/
def KeyCode.ofNat (n : Nat) : KeyCode :=
  match n with
  | 0 => KeyCode.Unknown
  | 1 => KeyCode.Function
  | 2 => KeyCode.Cancel
  | 3 => KeyCode.Backspace
  | 4 => KeyCode.Tab
  | 5 => KeyCode.Clear
  | 6 => KeyCode.Enter
  | 7 => KeyCode.Pause
  | 8 => KeyCode.Capital
  | 9 => KeyCode.Escape
  | 10 => KeyCode.Space
  | 11 => KeyCode.PageUp
  | 12 => KeyCode.PageDown
  | 13 => KeyCode.End
  | 14 => KeyCode.Home
  | 15 => KeyCode.Left
  | 16 => KeyCode.Up
  | 17 => KeyCode.Right
  | 18 => KeyCode.Down
  | 19 => KeyCode.Select
  | 20 => KeyCode.Print
  | 21 => KeyCode.PrintScreen
  | 22 => KeyCode.Insert
  | 23 => KeyCode.Delete
  | 24 => KeyCode.Digital0
  | 25 => KeyCode.Digital1
  | 26 => KeyCode.Digital2
  | 27 => KeyCode.Digital3
  | 28 => KeyCode.Digital4
  | 29 => KeyCode.Digital5
  | 30 => KeyCode.Digital6
  | 31 => KeyCode.Digital7
  | 32 => KeyCode.Digital8
  | 33 => KeyCode.Digital9
  | 34 => KeyCode.A
  | 35 => KeyCode.B
  | 36 => KeyCode.C
  | 37 => KeyCode.D
  | 38 => KeyCode.E
  | 39 => KeyCode.F
  | 40 => KeyCode.G
  | 41 => KeyCode.H
  | 42 => KeyCode.I
  | 43 => KeyCode.J
  | 44 => KeyCode.K
  | 45 => KeyCode.L
  | 46 => KeyCode.M
  | 47 => KeyCode.N
  | 48 => KeyCode.O
  | 49 => KeyCode.P
  | 50 => KeyCode.Q
  | 51 => KeyCode.R
  | 52 => KeyCode.S
  | 53 => KeyCode.T
  | 54 => KeyCode.U
  | 55 => KeyCode.V
  | 56 => KeyCode.W
  | 57 => KeyCode.X
  | 58 => KeyCode.Y
  | 59 => KeyCode.Z
  | 60 => KeyCode.App
  | 61 => KeyCode.F1
  | 62 => KeyCode.F2
  | 63 => KeyCode.F3
  | 64 => KeyCode.F4
  | 65 => KeyCode.F5
  | 66 => KeyCode.F6
  | 67 => KeyCode.F7
  | 68 => KeyCode.F8
  | 69 => KeyCode.F9
  | 70 => KeyCode.F10
  | 71 => KeyCode.F11
  | 72 => KeyCode.F12
  | 73 => KeyCode.F13
  | 74 => KeyCode.F14
  | 75 => KeyCode.F15
  | 76 => KeyCode.F16
  | 77 => KeyCode.F17
  | 78 => KeyCode.F18
  | 79 => KeyCode.F19
  | 80 => KeyCode.F20
  | 81 => KeyCode.F21
  | 82 => KeyCode.F22
  | 83 => KeyCode.F23
  | 84 => KeyCode.F24
  | 85 => KeyCode.BrowserBack
  | 86 => KeyCode.BrowserForward
  | 87 => KeyCode.Semicolon
  | 88 => KeyCode.Plus
  | 89 => KeyCode.Comma
  | 90 => KeyCode.Minus
  | 91 => KeyCode.Period
  | 92 => KeyCode.Slash
  | 93 => KeyCode.Tilde
  | 94 => KeyCode.LeftBracket
  | 95 => KeyCode.Backslash
  | 96 => KeyCode.RightBracket
  | 97 => KeyCode.Quote
  | 98 => KeyCode.OEM8
  | 99 => KeyCode.OEM102
  | 100 => KeyCode.Shift KeyPosition.Any
  | 101 => KeyCode.Shift KeyPosition.Left
  | 102 => KeyCode.Shift KeyPosition.Right
  | 104 => KeyCode.Control KeyPosition.Any
  | 105 => KeyCode.Control KeyPosition.Left
  | 106 => KeyCode.Control KeyPosition.Right
  | 108 => KeyCode.Alt KeyPosition.Any
  | 109 => KeyCode.Alt KeyPosition.Left
  | 110 => KeyCode.Alt KeyPosition.Right
  | 112 => KeyCode.Platform KeyPosition.Any
  | 113 => KeyCode.Platform KeyPosition.Left
  | 114 => KeyCode.Platform KeyPosition.Right
  | _ => KeyCode.Unknown

theorem KeyCode.ofNat_toNat (k : KeyCode) : KeyCode.ofNat k.toNat = k := by
  cases k <;> first
    | rfl
    | (rename_i p; cases p <;> rfl)

instance : DecidableEq KeyCode := fun a b =>
  decidable_of_iff (a.toNat = b.toNat)
    ⟨fun h => by
        have h2 := congrArg KeyCode.ofNat h
        rwa [KeyCode.ofNat_toNat, KeyCode.ofNat_toNat] at h2,
      fun h => by rw [h]⟩

/-- The derived `PartialEq` of `KeyCode`: structural equality on the variant,
delegating to the custom `KeyPosition` equality for the position-carrying
modifier variants. -/
def KeyCode.eq (a b : KeyCode) : Bool :=
  match a, b with
  | KeyCode.Shift p, KeyCode.Shift q => p.eq q
  | KeyCode.Control p, KeyCode.Control q => p.eq q
  | KeyCode.Alt p, KeyCode.Alt q => p.eq q
  | KeyCode.Platform p, KeyCode.Platform q => p.eq q
  | a, b => decide (a = b)

/-- `KeyCode::basic_parse` from `keycodes.rs`: the named-key vocabulary. -/
def KeyCode.basic_parse (input : String) : Option KeyCode :=
  match input with
  | "fn" => some KeyCode.Function
  | "cancel" => some KeyCode.Cancel
  | "backspace" => some KeyCode.Backspace
  | "tab" => some KeyCode.Tab
  | "enter" => some KeyCode.Enter
  | "shift" => some (KeyCode.Shift KeyPosition.Any)
  | "ctrl" => some (KeyCode.Control KeyPosition.Any)
  | "alt" => some (KeyCode.Alt KeyPosition.Any)
  | "capslock" => some KeyCode.Capital
  | "escape" => some KeyCode.Escape
  | "space" => some KeyCode.Space
  | "pageup" => some KeyCode.PageUp
  | "pagedown" => some KeyCode.PageDown
  | "end" => some KeyCode.End
  | "home" => some KeyCode.Home
  | "left" => some KeyCode.Left
  | "up" => some KeyCode.Up
  | "right" => some KeyCode.Right
  | "down" => some KeyCode.Down
  | "insert" => some KeyCode.Insert
  | "delete" => some KeyCode.Delete
  | "win" => some (KeyCode.Platform KeyPosition.Any)
  | "cmd" => some (KeyCode.Platform KeyPosition.Any)
  | "super" => some (KeyCode.Platform KeyPosition.Any)
  | "menu" => some KeyCode.App
  | "a" => some KeyCode.A
  | "b" => some KeyCode.B
  | "c" => some KeyCode.C
  | "d" => some KeyCode.D
  | "e" => some KeyCode.E
  | "f" => some KeyCode.F
  | "g" => some KeyCode.G
  | "h" => some KeyCode.H
  | "i" => some KeyCode.I
  | "j" => some KeyCode.J
  | "k" => some KeyCode.K
  | "l" => some KeyCode.L
  | "m" => some KeyCode.M
  | "n" => some KeyCode.N
  | "o" => some KeyCode.O
  | "p" => some KeyCode.P
  | "q" => some KeyCode.Q
  | "r" => some KeyCode.R
  | "s" => some KeyCode.S
  | "t" => some KeyCode.T
  | "u" => some KeyCode.U
  | "v" => some KeyCode.V
  | "w" => some KeyCode.W
  | "x" => some KeyCode.X
  | "y" => some KeyCode.Y
  | "z" => some KeyCode.Z
  | "f1" => some KeyCode.F1
  | "f2" => some KeyCode.F2
  | "f3" => some KeyCode.F3
  | "f4" => some KeyCode.F4
  | "f5" => some KeyCode.F5
  | "f6" => some KeyCode.F6
  | "f7" => some KeyCode.F7
  | "f8" => some KeyCode.F8
  | "f9" => some KeyCode.F9
  | "f10" => some KeyCode.F10
  | "f11" => some KeyCode.F11
  | "f12" => some KeyCode.F12
  | "f13" => some KeyCode.F13
  | "f14" => some KeyCode.F14
  | "f15" => some KeyCode.F15
  | "f16" => some KeyCode.F16
  | "f17" => some KeyCode.F17
  | "f18" => some KeyCode.F18
  | "f19" => some KeyCode.F19
  | "f20" => some KeyCode.F20
  | "f21" => some KeyCode.F21
  | "f22" => some KeyCode.F22
  | "f23" => some KeyCode.F23
  | "f24" => some KeyCode.F24
  | "back" => some KeyCode.BrowserBack
  | "forward" => some KeyCode.BrowserForward
  | _ => none

/-- `KeyCode::parse` from `keycodes.rs`: `basic_parse` extended with digits and
US-layout punctuation; unknown names are an error. -/
def KeyCode.parse (input : String) : Except String KeyCode :=
  match KeyCode.basic_parse input with
  | some key => Except.ok key
  | none =>
    match input with
    | "0" => Except.ok KeyCode.Digital0
    | "1" => Except.ok KeyCode.Digital1
    | "2" => Except.ok KeyCode.Digital2
    | "3" => Except.ok KeyCode.Digital3
    | "4" => Except.ok KeyCode.Digital4
    | "5" => Except.ok KeyCode.Digital5
    | "6" => Except.ok KeyCode.Digital6
    | "7" => Except.ok KeyCode.Digital7
    | "8" => Except.ok KeyCode.Digital8
    | "9" => Except.ok KeyCode.Digital9
    | ";" => Except.ok KeyCode.Semicolon
    | "=" => Except.ok KeyCode.Plus
    | "," => Except.ok KeyCode.Comma
    | "-" => Except.ok KeyCode.Minus
    | "." => Except.ok KeyCode.Period
    | "/" => Except.ok KeyCode.Slash
    | "`" => Except.ok KeyCode.Tilde
    | "[" => Except.ok KeyCode.LeftBracket
    | "\\" => Except.ok KeyCode.Backslash
    | "]" => Except.ok KeyCode.RightBracket
    | "\x27" => Except.ok KeyCode.Quote
    | _ => Except.error ("Error parsing keystroke to virtual keycode: " ++ input)

/-- `KeyCode::is_printable` from `keycodes.rs`: false exactly for the listed
navigation / function / editing keys. -/
def KeyCode.is_printable (key : KeyCode) : Bool :=
  !(match key with
    | KeyCode.F1 | KeyCode.F2 | KeyCode.F3 | KeyCode.F4 | KeyCode.F5
    | KeyCode.F6 | KeyCode.F7 | KeyCode.F8 | KeyCode.F9 | KeyCode.F10
    | KeyCode.F11 | KeyCode.F12 | KeyCode.F13 | KeyCode.F14 | KeyCode.F15
    | KeyCode.F16 | KeyCode.F17 | KeyCode.F18 | KeyCode.F19 | KeyCode.F20
    | KeyCode.F21 | KeyCode.F22 | KeyCode.F23 | KeyCode.F24
    | KeyCode.Backspace | KeyCode.Delete
    | KeyCode.Left | KeyCode.Up | KeyCode.Right | KeyCode.Down
    | KeyCode.PageUp | KeyCode.PageDown | KeyCode.Insert
    | KeyCode.Home | KeyCode.End
    | KeyCode.BrowserBack | KeyCode.BrowserForward
    | KeyCode.Escape => true
    | _ => false)

deriving instance DecidableEq for Except

/-- The modifier-flag bundle of `keystroke.rs` (five independent booleans). -/
structure Modifiers where
  control : Bool
  alt : Bool
  shift : Bool
  platform : Bool
  function : Bool
deriving DecidableEq

/-- `Modifiers::none()`: the all-false default. -/
def Modifiers.none : Modifiers :=
  { control := false, alt := false, shift := false, platform := false, function := false }

/-- The canonical keystroke value of `keystroke.rs`: modifier state, physical
key, and the optional IME-composed text. -/
structure Keystroke where
  modifiers : Modifiers
  key : KeyCode
  ime_key : Option String
deriving DecidableEq

instance : Inhabited Keystroke :=
  ⟨{ modifiers := Modifiers.none, key := KeyCode.Unknown, ime_key := none }⟩

/-- `Keystroke::should_match` from `keystroke.rs`: `self` is the typed
keystroke, `target` the bound one; exact comparison of the modifier bundle
and of the key (under the `KeyCode` equality, whose position component
treats `Any` as matching either side).  The historical IME-reconciliation
branch is commented out in the source and therefore absent here. -/
def Keystroke.should_match (self target : Keystroke) : Bool :=
  decide (target.modifiers = self.modifiers) && KeyCode.eq target.key self.key

/-- `translate_capital_keystroke` from `keystroke.rs`: maps a single
uppercase ASCII letter to its lowercase name and a US-QWERTY shifted symbol
to its unshifted base key name; anything else maps to `none`. -/
def translate_capital_keystroke (input : String) : Option String :=
  if input.utf8ByteSize ≠ 1 then none
  else
    match input.data with
    | [ch] =>
      if ch.isAlpha then
        if ch.isUpper then some (String.mk [ch.toLower]) else none
      else
        match ch with
        | '~' => some "`"
        | '!' => some "1"
        | '@' => some "2"
        | '#' => some "3"
        | '$' => some "4"
        | '%' => some "5"
        | '^' => some "6"
        | '&' => some "7"
        | '*' => some "8"
        | '(' => some "9"
        | ')' => some "0"
        | '_' => some "-"
        | '+' => some "="
        | '\x7b' => some "["
        | '\x7d' => some "]"
        | '|' => some "\\"
        | ':' => some ";"
        | '\x22' => some "\x27"
        | '<' => some ","
        | '>' => some "."
        | '?' => some "/"
        | _ => none
    | _ => none

/-- Rust `str::split(sep)` on the underlying character list: splits at every
occurrence of the separator, keeping empty pieces (so the result is never
the empty list). -/
def splitOnChar (sep : Char) : List Char → List (List Char)
  | [] => [[]]
  | c :: rest =>
    if c = sep then [] :: splitOnChar sep rest
    else
      match splitOnChar sep rest with
      | t :: ts => (c :: t) :: ts
      | [] => [[c]]

/-- Rust `source.split('-')` as a list of strings. -/
def splitChar (sep : Char) (s : String) : List String :=
  (splitOnChar sep s.data).map String.mk

/-- Rust `s.ends_with(c)`. -/
def strEndsWith (s : String) (c : Char) : Bool :=
  decide (s.data.getLast? = some c)

/-- Rust `s.starts_with(c)`. -/
def strStartsWith (s : String) (c : Char) : Bool :=
  decide (s.data.head? = some c)

/-- Rust `String::from(&s[1..])` for a string whose first character is
one-byte (here always the ASCII `>`). -/
def strDrop1 (s : String) : String :=
  String.mk s.data.tail

/-- The mutable state of the component loop in `Keystroke::parse`: the five
modifier flags, the pending key-parse result, and the optional IME text. -/
structure ParseState where
  control : Bool
  alt : Bool
  shift : Bool
  platform : Bool
  function : Bool
  key : Option (Except String KeyCode)
  ime_key : Option String

/-- The `while let Some(component) = components.next()` loop of
`Keystroke::parse` in `keystroke.rs`.  Modifier tokens set their flag; a
non-modifier token followed by the empty piece of a trailing `-` becomes the
literal minus key (`break`); a non-modifier token followed by a `>`-piece
records the key together with a literal `ime_key` and consumes the piece;
any other non-final non-modifier token is an error; the final token goes
through `translate_capital_keystroke` (setting `shift`, a double shift being
only logged) or is parsed as the key name directly. -/
def Keystroke.parseLoop (source : String) : List String → ParseState → Except String ParseState
  | [], st => Except.ok st
  | component :: rest, st =>
    if component = "ctrl" then Keystroke.parseLoop source rest { st with control := true }
    else if component = "alt" then Keystroke.parseLoop source rest { st with alt := true }
    else if component = "shift" then Keystroke.parseLoop source rest { st with shift := true }
    else if component = "fn" then Keystroke.parseLoop source rest { st with function := true }
    else if component = "cmd" ∨ component = "super" ∨ component = "win" then
      Keystroke.parseLoop source rest { st with platform := true }
    else
      match rest with
      | next :: rest2 =>
        if next = "" ∧ strEndsWith source '-' then
          Except.ok { st with key := some (KeyCode.parse "-") }
        else if next.length > 1 ∧ strStartsWith next '>' then
          Keystroke.parseLoop source rest2
            { st with key := some (KeyCode.parse component), ime_key := some (strDrop1 next) }
        else Except.error ("Invalid keystroke " ++ source)
      | [] =>
        match translate_capital_keystroke component with
        | some translated =>
          Except.ok { st with shift := true, key := some (KeyCode.parse translated) }
        | none =>
          Except.ok { st with key := some (KeyCode.parse component) }

/-- `Keystroke::parse` from `keystroke.rs`: run the component loop over the
`-`-split source, then apply the modifier-as-key fallback (a set modifier
becomes the key, its flag cleared, in the priority order
shift, ctrl, alt, platform, fn), and finally resolve the recorded key-parse
result, where a failed `KeyCodes::from_str` is only logged and the key
falls back to the default `Unknown` (`log_err().unwrap_or_default()`). -/
def Keystroke.parse (source : String) : Except String Keystroke :=
  match Keystroke.parseLoop source (splitChar '-' source)
      { control := false, alt := false, shift := false, platform := false,
        function := false, key := none, ime_key := none } with
  | Except.error e => Except.error e
  | Except.ok st0 =>
    let st :=
      if st0.key.isNone then
        if st0.shift then
          { st0 with key := some (Except.ok (KeyCode.Shift KeyPosition.Any)), shift := false }
        else if st0.control then
          { st0 with key := some (Except.ok (KeyCode.Control KeyPosition.Any)), control := false }
        else if st0.alt then
          { st0 with key := some (Except.ok (KeyCode.Alt KeyPosition.Any)), alt := false }
        else if st0.platform then
          { st0 with key := some (Except.ok (KeyCode.Platform KeyPosition.Any)), platform := false }
        else if st0.function then
          { st0 with key := some (Except.ok KeyCode.Function), function := false }
        else st0
      else st0
    match st.key with
    | none => Except.error ("Invalid keystroke " ++ source)
    | some keyResult =>
      Except.ok
        { modifiers :=
            { control := st.control, alt := st.alt, shift := st.shift,
              platform := st.platform, function := st.function },
          key :=
            match keyResult with
            | Except.ok k => k
            | Except.error _ => KeyCode.Unknown,
          ime_key := st.ime_key }

/-- Modelled from the spec: the textual form of a key — the `Display`
implementation of the key enumeration, present in this excerpt only as the
commented-out `KeyCode::unparse` table in `keycodes.rs`.  Each key maps to
the name it parses from (letters, digits, punctuation, named keys); keys
with no textual name render as a placeholder, and `Unknown` as
`"unknown"`. -/
def KeyCode.unparse (key : KeyCode) : String :=
  match key with
  | KeyCode.Unknown => "unknown"
  | KeyCode.Function => "fn"
  | KeyCode.Cancel => "cancel"
  | KeyCode.Backspace => "backspace"
  | KeyCode.Tab => "tab"
  | KeyCode.Clear => "UnImplemented"
  | KeyCode.Enter => "enter"
  | KeyCode.Shift _ => "shift"
  | KeyCode.Control _ => "ctrl"
  | KeyCode.Alt _ => "alt"
  | KeyCode.Pause => "UnImplemented"
  | KeyCode.Capital => "capslock"
  | KeyCode.Escape => "escape"
  | KeyCode.Space => "space"
  | KeyCode.PageUp => "pageup"
  | KeyCode.PageDown => "pagedown"
  | KeyCode.End => "end"
  | KeyCode.Home => "home"
  | KeyCode.Left => "left"
  | KeyCode.Up => "up"
  | KeyCode.Right => "right"
  | KeyCode.Down => "down"
  | KeyCode.Select => "UnImplemented"
  | KeyCode.Print => "UnImplemented"
  | KeyCode.PrintScreen => "UnImplemented"
  | KeyCode.Insert => "insert"
  | KeyCode.Delete => "delete"
  | KeyCode.Digital0 => "0"
  | KeyCode.Digital1 => "1"
  | KeyCode.Digital2 => "2"
  | KeyCode.Digital3 => "3"
  | KeyCode.Digital4 => "4"
  | KeyCode.Digital5 => "5"
  | KeyCode.Digital6 => "6"
  | KeyCode.Digital7 => "7"
  | KeyCode.Digital8 => "8"
  | KeyCode.Digital9 => "9"
  | KeyCode.A => "a"
  | KeyCode.B => "b"
  | KeyCode.C => "c"
  | KeyCode.D => "d"
  | KeyCode.E => "e"
  | KeyCode.F => "f"
  | KeyCode.G => "g"
  | KeyCode.H => "h"
  | KeyCode.I => "i"
  | KeyCode.J => "j"
  | KeyCode.K => "k"
  | KeyCode.L => "l"
  | KeyCode.M => "m"
  | KeyCode.N => "n"
  | KeyCode.O => "o"
  | KeyCode.P => "p"
  | KeyCode.Q => "q"
  | KeyCode.R => "r"
  | KeyCode.S => "s"
  | KeyCode.T => "t"
  | KeyCode.U => "u"
  | KeyCode.V => "v"
  | KeyCode.W => "w"
  | KeyCode.X => "x"
  | KeyCode.Y => "y"
  | KeyCode.Z => "z"
  | KeyCode.Platform _ => "win"
  | KeyCode.App => "menu"
  | KeyCode.F1 => "f1"
  | KeyCode.F2 => "f2"
  | KeyCode.F3 => "f3"
  | KeyCode.F4 => "f4"
  | KeyCode.F5 => "f5"
  | KeyCode.F6 => "f6"
  | KeyCode.F7 => "f7"
  | KeyCode.F8 => "f8"
  | KeyCode.F9 => "f9"
  | KeyCode.F10 => "f10"
  | KeyCode.F11 => "f11"
  | KeyCode.F12 => "f12"
  | KeyCode.F13 => "f13"
  | KeyCode.F14 => "f14"
  | KeyCode.F15 => "f15"
  | KeyCode.F16 => "f16"
  | KeyCode.F17 => "f17"
  | KeyCode.F18 => "f18"
  | KeyCode.F19 => "f19"
  | KeyCode.F20 => "f20"
  | KeyCode.F21 => "f21"
  | KeyCode.F22 => "f22"
  | KeyCode.F23 => "f23"
  | KeyCode.F24 => "f24"
  | KeyCode.BrowserBack => "back"
  | KeyCode.BrowserForward => "forward"
  | KeyCode.Semicolon => ";"
  | KeyCode.Plus => "="
  | KeyCode.Comma => ","
  | KeyCode.Minus => "-"
  | KeyCode.Period => "."
  | KeyCode.Slash => "/"
  | KeyCode.Tilde => "`"
  | KeyCode.LeftBracket => "["
  | KeyCode.Backslash => "\\"
  | KeyCode.RightBracket => "]"
  | KeyCode.Quote => "\x27"
  | KeyCode.OEM8 => "UnImplemented"
  | KeyCode.OEM102 => "UnImplemented"

/-- Rust `str::to_uppercase` on the ASCII strings produced by
`KeyCode.unparse`. -/
def strToUpper (s : String) : String :=
  String.mk (s.data.map Char.toUpper)

/-- `Keystroke::with_simulated_ime` from `keystroke.rs`: when no IME text is
present and no platform/control/function/alt modifier is active, synthesize
`ime_key` from the physical key (space, tab and enter get their literal
characters, non-printable keys get `None`, every other key its textual form,
uppercased when shift is active); otherwise return the keystroke
unchanged. -/
def Keystroke.with_simulated_ime (self : Keystroke) : Keystroke :=
  if self.ime_key.isNone
      && !self.modifiers.platform
      && !self.modifiers.control
      && !self.modifiers.function
      && !self.modifiers.alt then
    { self with
      ime_key :=
        match self.key with
        | KeyCode.Space => some " "
        | KeyCode.Tab => some "\t"
        | KeyCode.Enter => some "\n"
        | key =>
          if !key.is_printable then none
          else if self.modifiers.shift then some (strToUpper key.unparse)
          else some key.unparse }
  else self

/-- A keybinding from `binding.rs`: an action, the chord (ordered keystroke
sequence) and an optional shared context predicate.  The action type and the
predicate type are opaque to the matching logic and stay parameters. -/
structure KeyBinding (α : Type) (π : Type) where
  action : α
  keystrokes : List Keystroke
  context_predicate : Option π
deriving DecidableEq

/-- Rust `str::split_whitespace` (auxiliary walk, accumulating the current
word reversed): whitespace runs separate words, empty pieces are dropped. -/
def split_whitespace_aux : List Char → List Char → List (List Char)
  | [], cur => if cur.isEmpty then [] else [cur.reverse]
  | c :: rest, cur =>
    if c.isWhitespace then
      if cur.isEmpty then split_whitespace_aux rest []
      else cur.reverse :: split_whitespace_aux rest []
    else split_whitespace_aux rest (c :: cur)

/-- Rust `keystrokes.split_whitespace()` as a list of strings. -/
def split_whitespace (s : String) : List String :=
  (split_whitespace_aux s.data []).map String.mk

/-- The `collect::<Result<_, _>>()` in `KeyBinding::load`: parse every
token, propagating the first failure. -/
def parse_all : List String → Except String (List Keystroke)
  | [] => Except.ok []
  | t :: rest =>
    match Keystroke.parse t with
    | Except.error e => Except.error e
    | Except.ok k =>
      match parse_all rest with
      | Except.error e => Except.error e
      | Except.ok ks => Except.ok (k :: ks)

/-- `KeyBinding::load` from `binding.rs`: split the textual chord on
whitespace, parse each token with `Keystroke::parse`, and build the binding,
propagating the first parse failure.  The source's `key_equivalents` /
`use_key_equivalents` arguments feed a per-layout character remap into a
variant of `Keystroke::parse` that is not part of this excerpt; the
embedding models the `use_key_equivalents = false` path. -/
def KeyBinding.load {α π : Type} (keystrokes : String) (action : α)
    (context_predicate : Option π) : Except String (KeyBinding α π) :=
  match parse_all (split_whitespace keystrokes) with
  | Except.error e => Except.error e
  | Except.ok ks =>
    Except.ok { action := action, keystrokes := ks, context_predicate := context_predicate }

/-- `KeyBinding::match_keystrokes` from `binding.rs`: `None` when the typed
sequence is longer than the chord or any zipped pair fails `should_match`
(typed against target), otherwise `Some` of whether the chord is strictly
longer than the typed sequence. -/
def KeyBinding.match_keystrokes {α π : Type} (self : KeyBinding α π)
    (typed : List Keystroke) : Option Bool :=
  if self.keystrokes.length < typed.length then none
  else if (self.keystrokes.zip typed).all (fun p => Keystroke.should_match p.2 p.1) then
    some (decide (self.keystrokes.length > typed.length))
  else none

/-- `modifier_code` from `crates/terminal/src/mappings/keys.rs`: the
xterm-style modifier encoding built from the shift, alt and control bits. -/
def modifier_code (keystroke : Keystroke) : Nat :=
  let m0 := 0
  let m1 := if keystroke.modifiers.shift then m0 ||| 1 else m0
  let m2 := if keystroke.modifiers.alt then m1 ||| (1 <<< 1) else m1
  let m3 := if keystroke.modifiers.control then m2 ||| (1 <<< 2) else m2
  m3 + 1

/-- The modifiers value with only `control` set, shared by the concrete
chord examples. -/
def ctrl_only : Modifiers :=
  { control := true, alt := false, shift := false, platform := false, function := false }

/-- The modifiers value with only `shift` set. -/
def shift_only : Modifiers :=
  { control := false, alt := false, shift := true, platform := false, function := false }

/-- The typed or bound keystroke `ctrl-k`. -/
def ctrl_k : Keystroke := { modifiers := ctrl_only, key := KeyCode.K, ime_key := none }

/-- The typed or bound keystroke `ctrl-c`. -/
def ctrl_c : Keystroke := { modifiers := ctrl_only, key := KeyCode.C, ime_key := none }

/-- The typed keystroke `ctrl-x`. -/
def ctrl_x : Keystroke := { modifiers := ctrl_only, key := KeyCode.X, ime_key := none }

/-- The binding with chord `ctrl-k ctrl-c` (action and predicate trivial). -/
def kc_binding : KeyBinding Unit Unit :=
  { action := (), keystrokes := [ctrl_k, ctrl_c], context_predicate := none }

/-- The uppercase letters and US-QWERTY shifted symbols recognized by
`translate_capital_keystroke`, each paired with its unshifted base key
name. -/
def capital_pairs : List (String × String) :=
  [("A", "a"), ("B", "b"), ("C", "c"), ("D", "d"), ("E", "e"), ("F", "f"),
   ("G", "g"), ("H", "h"), ("I", "i"), ("J", "j"), ("K", "k"), ("L", "l"),
   ("M", "m"), ("N", "n"), ("O", "o"), ("P", "p"), ("Q", "q"), ("R", "r"),
   ("S", "s"), ("T", "t"), ("U", "u"), ("V", "v"), ("W", "w"), ("X", "x"),
   ("Y", "y"), ("Z", "z"),
   ("~", "`"), ("!", "1"), ("@", "2"), ("#", "3"), ("$", "4"), ("%", "5"),
   ("^", "6"), ("&", "7"), ("*", "8"), ("(", "9"), (")", "0"), ("_", "-"),
   ("+", "="), ("\x7b", "["), ("\x7d", "]"), ("|", "\\"), (":", ";"),
   ("\x22", "\x27"), ("<", ","), (">", "."), ("?", "/")]

/-- The modifier-token vocabulary of the `Keystroke::parse` component
loop. -/
def is_modifier_token (c : String) : Bool :=
  c = "ctrl" || c = "alt" || c = "shift" || c = "fn" || c = "cmd" || c = "super" || c = "win"

/-- Acceptance condition of the `Keystroke::parse` component loop, stated
over the token list alone: a modifier token continues the walk; a
non-modifier token is accepted when it is final, or when it is followed by
the empty piece of a trailing `-` (minus-key break) or by a `>`-piece of
length at least two (IME suffix, the walk continues after it); any other
non-modifier token rejects the keystroke. -/
def loop_accepts (source : String) : List String → Bool
  | [] => true
  | component :: rest =>
    if is_modifier_token component then loop_accepts source rest
    else
      match rest with
      | next :: rest2 =>
        if next = "" ∧ strEndsWith source '-' then true
        else if next.length > 1 ∧ strStartsWith next '>' then loop_accepts source rest2
        else false
      | [] => true

/-- A parse-loop state that has recorded a key or set some modifier flag. -/
def ParseState.has_progress (st : ParseState) : Bool :=
  st.key.isSome || st.control || st.alt || st.shift || st.platform || st.function

/-- C2: `should_match` is the exact equality of the modifier bundle paired
with the key equality (the `ime_key` field plays no role), with no subset
relaxation: `ctrl-a` typed matches neither a bound `ctrl-shift-a` nor a
bound bare `a`. -/
theorem should_match_exact :
    (∀ a b : Keystroke,
      Keystroke.should_match a b =
        (decide (b.modifiers = a.modifiers) && KeyCode.eq b.key a.key))
  ∧ (∀ a b : Keystroke, ∀ i j : Option String,
      Keystroke.should_match { modifiers := a.modifiers, key := a.key, ime_key := i }
          { modifiers := b.modifiers, key := b.key, ime_key := j } =
        Keystroke.should_match a b)
  ∧ (Keystroke.should_match { modifiers := ctrl_only, key := KeyCode.A, ime_key := none }
      { modifiers := { control := true, alt := false, shift := true, platform := false, function := false },
        key := KeyCode.A, ime_key := none } = false)
  ∧ (Keystroke.should_match { modifiers := ctrl_only, key := KeyCode.A, ime_key := none }
      { modifiers := Modifiers.none, key := KeyCode.A, ime_key := none } = false) := by
  refine ⟨fun a b => rfl, fun a b i j => rfl, by decide, by decide⟩

/-- C4: a bare modifier token becomes the key itself with every modifier
flag cleared: `shift`, `alt`, `ctrl`, `cmd`/`super`/`win` and `fn` parse to
the corresponding modifier key (`Any` position) under all-false
modifiers. -/
theorem parse_modifier_as_key :
    Keystroke.parse "shift" = Except.ok
      { modifiers := Modifiers.none, key := KeyCode.Shift KeyPosition.Any, ime_key := none }
  ∧ Keystroke.parse "alt" = Except.ok
      { modifiers := Modifiers.none, key := KeyCode.Alt KeyPosition.Any, ime_key := none }
  ∧ Keystroke.parse "ctrl" = Except.ok
      { modifiers := Modifiers.none, key := KeyCode.Control KeyPosition.Any, ime_key := none }
  ∧ Keystroke.parse "cmd" = Except.ok
      { modifiers := Modifiers.none, key := KeyCode.Platform KeyPosition.Any, ime_key := none }
  ∧ Keystroke.parse "super" = Except.ok
      { modifiers := Modifiers.none, key := KeyCode.Platform KeyPosition.Any, ime_key := none }
  ∧ Keystroke.parse "win" = Except.ok
      { modifiers := Modifiers.none, key := KeyCode.Platform KeyPosition.Any, ime_key := none }
  ∧ Keystroke.parse "fn" = Except.ok
      { modifiers := Modifiers.none, key := KeyCode.Function, ime_key := none } := by
  decide

/-- C6: the `KeyPosition` equality makes `Left` and `Right` unequal but both
equal to `Any`; it is reflexive and symmetric yet not transitive, and it
lifts to the key equality and to `should_match`, so plain `shift` matches a
left shift while a pinned left shift does not match a right shift. -/
theorem keyposition_equality :
    (KeyPosition.eq KeyPosition.Left KeyPosition.Right = false)
  ∧ (KeyPosition.eq KeyPosition.Right KeyPosition.Left = false)
  ∧ (KeyPosition.eq KeyPosition.Any KeyPosition.Left = true)
  ∧ (KeyPosition.eq KeyPosition.Left KeyPosition.Any = true)
  ∧ (KeyPosition.eq KeyPosition.Any KeyPosition.Right = true)
  ∧ (KeyPosition.eq KeyPosition.Right KeyPosition.Any = true)
  ∧ (∀ p : KeyPosition, KeyPosition.eq p p = true)
  ∧ (∀ p q : KeyPosition, KeyPosition.eq p q = KeyPosition.eq q p)
  ∧ ¬ (∀ p q r : KeyPosition,
        KeyPosition.eq p q = true → KeyPosition.eq q r = true → KeyPosition.eq p r = true)
  ∧ (KeyCode.eq (KeyCode.Shift KeyPosition.Left) (KeyCode.Shift KeyPosition.Any) = true)
  ∧ (KeyCode.eq (KeyCode.Shift KeyPosition.Left) (KeyCode.Shift KeyPosition.Right) = false)
  ∧ (Keystroke.should_match
      { modifiers := Modifiers.none, key := KeyCode.Shift KeyPosition.Left, ime_key := none }
      { modifiers := Modifiers.none, key := KeyCode.Shift KeyPosition.Any, ime_key := none } = true)
  ∧ (Keystroke.should_match
      { modifiers := Modifiers.none, key := KeyCode.Shift KeyPosition.Left, ime_key := none }
      { modifiers := Modifiers.none, key := KeyCode.Shift KeyPosition.Right, ime_key := none } = false) := by
  decide

/-- C8: `modifier_code` is the xterm encoding
`1 + shift + 2 * alt + 4 * ctrl`; it depends only on the shift, alt and
control flags (never on platform, function or the key), and realizes the
documented table shift 2, alt 3, shift-alt 4, ctrl 5, shift-ctrl 6,
alt-ctrl 7, shift-alt-ctrl 8. -/
theorem modifier_code_spec :
    (∀ k : Keystroke,
      modifier_code k =
        1 + (if k.modifiers.shift then 1 else 0) + (if k.modifiers.alt then 2 else 0)
          + (if k.modifiers.control then 4 else 0))
  ∧ (∀ k k2 : Keystroke,
      k2.modifiers.shift = k.modifiers.shift → k2.modifiers.alt = k.modifiers.alt →
      k2.modifiers.control = k.modifiers.control → modifier_code k2 = modifier_code k)
  ∧ (modifier_code { modifiers := shift_only, key := KeyCode.A, ime_key := none } = 2)
  ∧ (modifier_code { modifiers := { control := false, alt := true, shift := false, platform := false, function := false }, key := KeyCode.A, ime_key := none } = 3)
  ∧ (modifier_code { modifiers := { control := false, alt := true, shift := true, platform := false, function := false }, key := KeyCode.A, ime_key := none } = 4)
  ∧ (modifier_code { modifiers := ctrl_only, key := KeyCode.A, ime_key := none } = 5)
  ∧ (modifier_code { modifiers := { control := true, alt := false, shift := true, platform := false, function := false }, key := KeyCode.A, ime_key := none } = 6)
  ∧ (modifier_code { modifiers := { control := true, alt := true, shift := false, platform := false, function := false }, key := KeyCode.A, ime_key := none } = 7)
  ∧ (modifier_code { modifiers := { control := true, alt := true, shift := true, platform := false, function := false }, key := KeyCode.A, ime_key := none } = 8) := by
  have hform : ∀ k : Keystroke,
      modifier_code k =
        1 + (if k.modifiers.shift then 1 else 0) + (if k.modifiers.alt then 2 else 0)
          + (if k.modifiers.control then 4 else 0) := by
    rintro ⟨⟨c, a, s, p, f⟩, key, ime⟩
    have h0 : modifier_code ⟨⟨c, a, s, p, f⟩, key, ime⟩ =
        modifier_code ⟨⟨c, a, s, p, f⟩, KeyCode.A, none⟩ := rfl
    dsimp only
    rw [h0]
    cases c <;> cases a <;> cases s <;> cases p <;> cases f <;> decide
  refine ⟨hform, fun k k2 hs ha hc => ?_, by decide, by decide, by decide, by decide,
    by decide, by decide, by decide⟩
  rw [hform k, hform k2, hs, ha, hc]

/-- Witness for C8 at concrete inputs: a keystroke with the same shift, alt
and control flags but different platform and function flags, key and IME
text receives the same modifier code. -/
theorem modifier_code_spec_witness :
    modifier_code { modifiers := { control := true, alt := false, shift := true, platform := true, function := true },
                    key := KeyCode.B, ime_key := some "b" } =
      modifier_code { modifiers := { control := true, alt := false, shift := true, platform := false, function := false },
                      key := KeyCode.A, ime_key := none } :=
  modifier_code_spec.2.1
    { modifiers := { control := true, alt := false, shift := true, platform := false, function := false },
      key := KeyCode.A, ime_key := none }
    { modifiers := { control := true, alt := false, shift := true, platform := true, function := true },
      key := KeyCode.B, ime_key := some "b" }
    rfl rfl rfl

/-- C9: on the empty typed sequence `match_keystrokes` never answers
`None`: it answers `Some true` exactly when the chord is non-empty and
`Some false` when the chord is empty. -/
theorem match_keystrokes_nil {α π : Type} (b : KeyBinding α π) :
    b.match_keystrokes [] = some (decide (0 < b.keystrokes.length)) := by
  unfold KeyBinding.match_keystrokes
  simp [List.zip_nil_right]

/-- C3 counterexample: an unknown key name is rejected by `KeyCode::parse`
yet `Keystroke::parse` still succeeds on it, producing the default
`Unknown` key (the failure is only logged). -/
theorem parse_unknown_key_is_ok :
    (KeyCode.parse "foo").isOk = false
  ∧ Keystroke.parse "foo" =
      Except.ok { modifiers := Modifiers.none, key := KeyCode.Unknown, ime_key := none } := by
  decide

/-- C10: every uppercase letter and shifted US-QWERTY symbol, as a final
single-character token, parses exactly like `shift-` followed by the
unshifted base key; and an explicit `shift-` before such a token still
succeeds with shift set (the double shift is only logged). -/
theorem parse_capital_keystrokes :
    (∀ p ∈ capital_pairs,
        Keystroke.parse p.1 = Keystroke.parse ("shift-" ++ p.2)
      ∧ Keystroke.parse p.1 =
          Except.map (fun k => { modifiers := shift_only, key := k, ime_key := none })
            (KeyCode.parse p.2))
  ∧ Keystroke.parse "shift-A" =
      Except.ok { modifiers := shift_only, key := KeyCode.A, ime_key := none } := by
  decide

/-- Witness for C10 at a concrete input: `parse("A")` equals
`parse("shift-a")`. -/
theorem parse_capital_keystrokes_witness :
    Keystroke.parse "A" = Keystroke.parse "shift-a" :=
  (parse_capital_keystrokes.1 ("A", "a") (by decide)).1

/-- The pair stored at position `i` of a zipped chord/typed list. -/
theorem zip_getD_mem {l1 l2 : List Keystroke} {i : Nat}
    (h1 : i < l1.length) (h2 : i < l2.length) :
    (l1.getD i default, l2.getD i default) ∈ l1.zip l2 := by
  have hz : i < (l1.zip l2).length := by
    rw [List.length_zip]; exact lt_min h1 h2
  have hg : (l1.zip l2)[i] = (l1[i], l2[i]) := List.getElem_zip
  have hd1 : l1.getD i default = l1[i] := by
    rw [List.getD_eq_getElem?_getD, List.getElem?_eq_getElem h1, Option.getD_some]
  have hd2 : l2.getD i default = l2[i] := by
    rw [List.getD_eq_getElem?_getD, List.getElem?_eq_getElem h2, Option.getD_some]
  rw [hd1, hd2, ← hg]
  exact List.getElem_mem hz

/-- C1: the three-way outcome of `match_keystrokes`: `None` when the typed
sequence is longer than the chord, `None` when some typed keystroke fails
`should_match` against the chord keystroke at the same position, and
otherwise `Some` of whether the chord is strictly longer than the typed
sequence (`Some true` mid-chord, `Some false` complete). -/
theorem match_keystrokes_three_way {α π : Type} (b : KeyBinding α π)
    (typed : List Keystroke) :
    (b.keystrokes.length < typed.length → b.match_keystrokes typed = none)
  ∧ (∀ i, i < typed.length → i < b.keystrokes.length →
      Keystroke.should_match (typed.getD i default) (b.keystrokes.getD i default) = false →
      b.match_keystrokes typed = none)
  ∧ (typed.length ≤ b.keystrokes.length →
      (∀ i, i < typed.length →
        Keystroke.should_match (typed.getD i default) (b.keystrokes.getD i default) = true) →
      b.match_keystrokes typed = some (decide (typed.length < b.keystrokes.length))) := by
  refine ⟨fun h => ?_, fun i hi hj hbad => ?_, fun hle hall => ?_⟩
  · simp [KeyBinding.match_keystrokes, h]
  · by_cases hlen : b.keystrokes.length < typed.length
    · simp [KeyBinding.match_keystrokes, hlen]
    · have hfalse : (b.keystrokes.zip typed).all
          (fun p => Keystroke.should_match p.2 p.1) = false := by
        rw [List.all_eq_false]
        exact ⟨(b.keystrokes.getD i default, typed.getD i default),
          zip_getD_mem hj hi, by simpa using hbad⟩
      simp [KeyBinding.match_keystrokes, hlen, hfalse]
  · have h1 : ¬ b.keystrokes.length < typed.length := Nat.not_lt.mpr hle
    have h2 : (b.keystrokes.zip typed).all
        (fun p => Keystroke.should_match p.2 p.1) = true := by
      rw [List.all_eq_true]
      intro p hp
      obtain ⟨i, hi, hget⟩ := List.getElem_of_mem hp
      have hlt : i < typed.length := by
        have := hi
        rw [List.length_zip] at this
        exact lt_of_lt_of_le this (min_le_right _ _)
      have hlt2 : i < b.keystrokes.length := lt_of_lt_of_le hlt hle
      have hz : (b.keystrokes.zip typed)[i] = (b.keystrokes[i], typed[i]) :=
        List.getElem_zip
      have hd1 : b.keystrokes.getD i default = b.keystrokes[i] := by
        rw [List.getD_eq_getElem?_getD, List.getElem?_eq_getElem hlt2, Option.getD_some]
      have hd2 : typed.getD i default = typed[i] := by
        rw [List.getD_eq_getElem?_getD, List.getElem?_eq_getElem hlt, Option.getD_some]
      have := hall i hlt
      rw [hd1, hd2] at this
      rw [← hget, hz]
      simpa using this
    simp [KeyBinding.match_keystrokes, h1, h2]

/-- Witness for C1 at the documented chord: against the binding
`ctrl-k ctrl-c`, the typed sequence `[ctrl-k]` is a partial match. -/
theorem match_keystrokes_three_way_witness :
    kc_binding.match_keystrokes [ctrl_k] = some true := by
  have h := (match_keystrokes_three_way kc_binding [ctrl_k]).2.2 (by decide) (by decide)
  simpa using h

/-- Unfolding of `parse_all` on a successful run: the output has one parsed
keystroke per input token, in order. -/
theorem parse_all_spec : ∀ (ts : List String) (ks : List Keystroke),
    parse_all ts = Except.ok ks →
    ks.length = ts.length
    ∧ ∀ i, i < ts.length →
        Keystroke.parse (ts.getD i "") = Except.ok (ks.getD i default) := by
  intro ts
  induction ts with
  | nil =>
    intro ks h
    cases h
    exact ⟨rfl, fun i hi => absurd hi (Nat.not_lt_zero i)⟩
  | cons t rest ih =>
    intro ks h
    unfold parse_all at h
    cases hp : Keystroke.parse t with
    | error e => rw [hp] at h; cases h
    | ok k =>
      rw [hp] at h
      cases hr : parse_all rest with
      | error e => rw [hr] at h; cases h
      | ok ks2 =>
        rw [hr] at h
        cases h
        obtain ⟨hlen, hidx⟩ := ih ks2 hr
        refine ⟨by simp [hlen], fun i hi => ?_⟩
        cases i with
        | zero => simpa using hp
        | succ j =>
          have hj : j < rest.length := Nat.lt_of_succ_lt_succ hi
          simpa using hidx j hj

/-- C5 counterexample: `KeyBinding::load` on the empty chord text succeeds
and produces a binding whose keystroke sequence is empty, so a successful
load does not guarantee a non-empty chord. -/
theorem load_empty_text_ok :
    KeyBinding.load "" () (none : Option Unit) =
      Except.ok { action := (), keystrokes := [], context_predicate := none }
  ∧ ({ action := (), keystrokes := [], context_predicate := none } : KeyBinding Unit Unit).keystrokes.length = 0 := by
  exact ⟨by decide, rfl⟩

/-- C5 (amended): a successful `KeyBinding::load` keeps the action and the
context predicate, and its keystroke sequence has exactly one keystroke per
whitespace-separated token of the input text, in token order (the keystroke
at position `i` is the parse of the token at position `i`); the sequence is
non-empty whenever the text has at least one token, but the empty or
all-whitespace text loads successfully with an empty sequence. -/
theorem load_keystroke_order {α π : Type} (text : String) (action : α)
    (ctx : Option π) (b : KeyBinding α π)
    (h : KeyBinding.load text action ctx = Except.ok b) :
    b.action = action
  ∧ b.context_predicate = ctx
  ∧ b.keystrokes.length = (split_whitespace text).length
  ∧ (∀ i, i < (split_whitespace text).length →
      Keystroke.parse ((split_whitespace text).getD i "") =
        Except.ok (b.keystrokes.getD i default))
  ∧ (split_whitespace text ≠ [] → b.keystrokes ≠ []) := by
  unfold KeyBinding.load at h
  cases hp : parse_all (split_whitespace text) with
  | error e => rw [hp] at h; cases h
  | ok ks =>
    rw [hp] at h
    cases h
    obtain ⟨hlen, hidx⟩ := parse_all_spec _ _ hp
    refine ⟨rfl, rfl, hlen, hidx, fun hne => ?_⟩
    intro hksnil
    apply hne
    have hks : ks = [] := hksnil
    cases hsw : split_whitespace text with
    | nil => rfl
    | cons t rest =>
      rw [hsw, hks] at hlen
      simp at hlen

/-- Witness for C5 (amended) at a concrete chord: loading `ctrl-k ctrl-c`
yields a non-empty keystroke sequence. -/
theorem load_keystroke_order_witness :
    ({ action := (), keystrokes := [ctrl_k, ctrl_c], context_predicate := none } :
      KeyBinding Unit Unit).keystrokes ≠ [] :=
  (load_keystroke_order "ctrl-k ctrl-c" () none
      { action := (), keystrokes := [ctrl_k, ctrl_c], context_predicate := none }
      (by decide)).2.2.2.2 (by decide)

/-- Splitting on a character never yields the empty list of pieces. -/
theorem splitOnChar_ne_nil (sep : Char) (l : List Char) : splitOnChar sep l ≠ [] := by
  cases l with
  | nil => simp [splitOnChar]
  | cons c rest =>
    by_cases h : c = sep
    · simp [splitOnChar, h]
    · cases hs : splitOnChar sep rest <;> simp [splitOnChar, h, hs]

/-- The component loop fails exactly when `loop_accepts` rejects the
component list, whatever the loop state. -/
theorem parseLoop_isOk_eq (source : String) (comps : List String) (st : ParseState) :
    (Keystroke.parseLoop source comps st).isOk = loop_accepts source comps := by
  have main : ∀ (n : Nat) (comps : List String), comps.length ≤ n → ∀ st : ParseState,
      (Keystroke.parseLoop source comps st).isOk = loop_accepts source comps := by
    intro n
    induction n with
    | zero =>
      intro comps hlen st
      have hnil : comps = [] := List.eq_nil_of_length_eq_zero (Nat.le_zero.mp hlen)
      subst hnil
      rfl
    | succ n ih =>
      intro comps hlen st
      cases comps with
      | nil => rfl
      | cons component rest =>
        have hrest : rest.length ≤ n := by
          simp only [List.length_cons] at hlen
          omega
        unfold Keystroke.parseLoop loop_accepts
        by_cases h1 : component = "ctrl"
        · rw [if_pos h1,
            if_pos (show is_modifier_token component = true by rw [h1]; decide)]
          exact ih rest hrest _
        · rw [if_neg h1]
          by_cases h2 : component = "alt"
          · rw [if_pos h2,
              if_pos (show is_modifier_token component = true by rw [h2]; decide)]
            exact ih rest hrest _
          · rw [if_neg h2]
            by_cases h3 : component = "shift"
            · rw [if_pos h3,
                if_pos (show is_modifier_token component = true by rw [h3]; decide)]
              exact ih rest hrest _
            · rw [if_neg h3]
              by_cases h4 : component = "fn"
              · rw [if_pos h4,
                  if_pos (show is_modifier_token component = true by rw [h4]; decide)]
                exact ih rest hrest _
              · rw [if_neg h4]
                by_cases h5 : component = "cmd" ∨ component = "super" ∨ component = "win"
                · rw [if_pos h5,
                    if_pos (show is_modifier_token component = true by
                      rcases h5 with h | h | h <;> rw [h] <;> decide)]
                  exact ih rest hrest _
                · rw [if_neg h5,
                    if_neg (show ¬ is_modifier_token component = true by
                      simp [is_modifier_token, h1, h2, h3, h4]
                      tauto)]
                  cases rest with
                  | nil => cases translate_capital_keystroke component <;> rfl
                  | cons next rest2 =>
                    have hrest2 : rest2.length ≤ n := by
                      simp only [List.length_cons] at hrest
                      omega
                    dsimp only
                    by_cases hd : next = "" ∧ strEndsWith source '-' = true
                    · rw [if_pos hd, if_pos hd]
                      rfl
                    · rw [if_neg hd, if_neg hd]
                      by_cases hime : next.length > 1 ∧ strStartsWith next '>' = true
                      · rw [if_pos hime, if_pos hime]
                        exact ih rest2 hrest2 _
                      · rw [if_neg hime, if_neg hime]
                        rfl
  exact main comps.length comps (le_refl _) st

/-- A completed component loop has recorded a key or set a flag, unless it
consumed no component at all. -/
theorem parseLoop_progress (source : String) (comps : List String) (st st' : ParseState)
    (h : Keystroke.parseLoop source comps st = Except.ok st') :
    st'.has_progress = true ∨ (st' = st ∧ comps = []) := by
  have main : ∀ (n : Nat) (comps : List String), comps.length ≤ n →
      ∀ (st st' : ParseState), Keystroke.parseLoop source comps st = Except.ok st' →
      st'.has_progress = true ∨ (st' = st ∧ comps = []) := by
    intro n
    induction n with
    | zero =>
      intro comps hlen st st' h
      have hnil : comps = [] := List.eq_nil_of_length_eq_zero (Nat.le_zero.mp hlen)
      subst hnil
      cases h
      exact Or.inr ⟨rfl, rfl⟩
    | succ n ih =>
      intro comps hlen st st' h
      cases comps with
      | nil =>
        cases h
        exact Or.inr ⟨rfl, rfl⟩
      | cons component rest =>
        have hrest : rest.length ≤ n := by
          simp only [List.length_cons] at hlen
          omega
        unfold Keystroke.parseLoop at h
        by_cases h1 : component = "ctrl"
        · rw [if_pos h1] at h
          rcases ih rest hrest _ _ h with hp | ⟨heq, _⟩
          · exact Or.inl hp
          · subst heq
            exact Or.inl (by simp [ParseState.has_progress])
        · rw [if_neg h1] at h
          by_cases h2 : component = "alt"
          · rw [if_pos h2] at h
            rcases ih rest hrest _ _ h with hp | ⟨heq, _⟩
            · exact Or.inl hp
            · subst heq
              exact Or.inl (by simp [ParseState.has_progress])
          · rw [if_neg h2] at h
            by_cases h3 : component = "shift"
            · rw [if_pos h3] at h
              rcases ih rest hrest _ _ h with hp | ⟨heq, _⟩
              · exact Or.inl hp
              · subst heq
                exact Or.inl (by simp [ParseState.has_progress])
            · rw [if_neg h3] at h
              by_cases h4 : component = "fn"
              · rw [if_pos h4] at h
                rcases ih rest hrest _ _ h with hp | ⟨heq, _⟩
                · exact Or.inl hp
                · subst heq
                  exact Or.inl (by simp [ParseState.has_progress])
              · rw [if_neg h4] at h
                by_cases h5 : component = "cmd" ∨ component = "super" ∨ component = "win"
                · rw [if_pos h5] at h
                  rcases ih rest hrest _ _ h with hp | ⟨heq, _⟩
                  · exact Or.inl hp
                  · subst heq
                    exact Or.inl (by simp [ParseState.has_progress])
                · rw [if_neg h5] at h
                  cases rest with
                  | nil =>
                    cases htr : translate_capital_keystroke component with
                    | some translated =>
                      rw [htr] at h
                      cases h
                      exact Or.inl (by simp [ParseState.has_progress])
                    | none =>
                      rw [htr] at h
                      cases h
                      exact Or.inl (by simp [ParseState.has_progress])
                  | cons next rest2 =>
                    have hrest2 : rest2.length ≤ n := by
                      simp only [List.length_cons] at hrest
                      omega
                    dsimp only at h
                    by_cases hd : next = "" ∧ strEndsWith source '-' = true
                    · rw [if_pos hd] at h
                      cases h
                      exact Or.inl (by simp [ParseState.has_progress])
                    · rw [if_neg hd] at h
                      by_cases hime : next.length > 1 ∧ strStartsWith next '>' = true
                      · rw [if_pos hime] at h
                        rcases ih rest2 hrest2 _ _ h with hp | ⟨heq, _⟩
                        · exact Or.inl hp
                        · subst heq
                          exact Or.inl (by simp [ParseState.has_progress])
                      · rw [if_neg hime] at h
                        cases h
  exact main comps.length comps (le_refl _) st st' h

/-- C3 (amended): `Keystroke::parse` returns an error exactly when the
component walk rejects the `-`-split source — that is, when a non-modifier
token is followed by a further token other than the empty piece of a
trailing `-` or a `>` IME suffix.  The other two error cases alleged by the
specification do not error: an unknown key name yields `Ok` with the key
`Unknown` (the `KeyCode::parse` failure is only logged), and a dangling
modifier never errors because the modifier becomes the key. -/
theorem parse_isOk_characterization (source : String) :
    (Keystroke.parse source).isOk = loop_accepts source (splitChar '-' source) := by
  have hsplit : splitChar '-' source ≠ [] := by
    intro hcontra
    exact splitOnChar_ne_nil '-' source.data (List.map_eq_nil_iff.mp hcontra)
  unfold Keystroke.parse
  cases hL : Keystroke.parseLoop source (splitChar '-' source)
      { control := false, alt := false, shift := false, platform := false,
        function := false, key := none, ime_key := none } with
  | error e =>
    have hacc := parseLoop_isOk_eq source (splitChar '-' source)
      { control := false, alt := false, shift := false, platform := false,
        function := false, key := none, ime_key := none }
    rw [hL] at hacc
    rw [← hacc]
    rfl
  | ok st0 =>
    have hacc := parseLoop_isOk_eq source (splitChar '-' source)
      { control := false, alt := false, shift := false, platform := false,
        function := false, key := none, ime_key := none }
    rw [hL] at hacc
    rw [← hacc]
    rcases parseLoop_progress source (splitChar '-' source) _ st0 hL with hp | ⟨_, hnil⟩
    · obtain ⟨c0, a0, s0, p0, f0, k0, i0⟩ := st0
      cases k0 with
      | some kr => rfl
      | none =>
        cases s0 with
        | true => rfl
        | false =>
          cases c0 with
          | true => rfl
          | false =>
            cases a0 with
            | true => rfl
            | false =>
              cases p0 with
              | true => rfl
              | false =>
                cases f0 with
                | true => rfl
                | false => simp [ParseState.has_progress] at hp
    · exact absurd hnil hsplit

/-- C7: `with_simulated_ime` is idempotent, never changes the modifiers or
the key, is the identity when `ime_key` is already populated or a
platform/control/function/alt modifier is set, and otherwise fills
`ime_key` with the literal space, tab or newline character for the space,
tab and enter keys, `none` for non-printable keys, and the key's textual
form (uppercased when shift is set) for every other key. -/
theorem with_simulated_ime_spec (k : Keystroke) :
    (k.with_simulated_ime.with_simulated_ime = k.with_simulated_ime)
  ∧ (k.with_simulated_ime.modifiers = k.modifiers)
  ∧ (k.with_simulated_ime.key = k.key)
  ∧ ((k.ime_key ≠ none ∨ k.modifiers.platform = true ∨ k.modifiers.control = true
      ∨ k.modifiers.function = true ∨ k.modifiers.alt = true) → k.with_simulated_ime = k)
  ∧ (k.ime_key = none → k.modifiers.platform = false → k.modifiers.control = false →
      k.modifiers.function = false → k.modifiers.alt = false →
      k.with_simulated_ime.ime_key =
        match k.key with
        | KeyCode.Space => some " "
        | KeyCode.Tab => some "\t"
        | KeyCode.Enter => some "\n"
        | key =>
          if key.is_printable then
            some (if k.modifiers.shift then strToUpper key.unparse else key.unparse)
          else none) := by
  obtain ⟨⟨c, a, s, p, f⟩, key, ime⟩ := k
  cases ime with
  | some v =>
    exact ⟨rfl, rfl, rfl, fun _ => rfl, fun h5 => nomatch h5⟩
  | none =>
    cases p with
    | true => exact ⟨rfl, rfl, rfl, fun _ => rfl, fun _ hp => nomatch hp⟩
    | false =>
      cases c with
      | true => exact ⟨rfl, rfl, rfl, fun _ => rfl, fun _ _ hc => nomatch hc⟩
      | false =>
        cases f with
        | true => exact ⟨rfl, rfl, rfl, fun _ => rfl, fun _ _ _ hf => nomatch hf⟩
        | false =>
          cases a with
          | true => exact ⟨rfl, rfl, rfl, fun _ => rfl, fun _ _ _ _ ha => nomatch ha⟩
          | false =>
            refine ⟨by cases s <;> cases key <;> rfl, rfl, rfl, fun h => ?_,
              fun _ _ _ _ _ => by cases key <;> cases s <;> rfl⟩
            rcases h with h | h | h | h | h
            · exact absurd rfl h
            · exact nomatch h
            · exact nomatch h
            · exact nomatch h
            · exact nomatch h

/-- Witness for C7 at a concrete input: simulating the IME text of a bare
`shift-a` keystroke fills in the uppercased textual form `A`. -/
theorem with_simulated_ime_spec_witness :
    (Keystroke.with_simulated_ime
      { modifiers := shift_only, key := KeyCode.A, ime_key := none }).ime_key = some "A" := by
  have h := (with_simulated_ime_spec
    { modifiers := shift_only, key := KeyCode.A, ime_key := none }).2.2.2.2 rfl rfl rfl rfl rfl
  rw [h]
  decide
